import Mathlib

/-!
Verification of the register-level control core of the CW_Radar firmware
(`firmware/main.py`): 16-bit bit-field manipulation, SPI register access for
the LMX2594 synthesizer, frequency derivation, and the FMCW ramp
configuration routine `configure_ramp`.

Modelling conventions:
* Python arbitrary-precision integers are `Nat` (register words, all
  nonnegative in the firmware) or `Int` (derived ramp codes, which the code
  manipulates with two's-complement style shifts and masks).
* Python floats are idealised as `ℚ`; the spec itself describes all the
  frequency arithmetic as real-valued.  The firmware's `ZeroDivisionError`
  cases are modelled explicitly: the line-684 increment derivation is
  `Option`-valued (`none` when `f_pd` or `ramp_len` is zero), and
  `configure_ramp` takes its commit branch only when that derivation is
  defined, `PLL_DEN` is nonzero (line 488 would raise otherwise), and the
  range assertions pass.  `ℚ`'s `q / 0 = 0` convention remains only inside
  `f_pd_val`, where a division by a zero register field makes the whole
  value 0 — exactly the inputs on which Python raises inside `calc_f_pd`
  (or later at line 684), and which the `ramp_div_ok` guard therefore
  routes into the abort branch.  On aborting runs the modelled transaction
  log can extend past the crash point of the real program (never with
  ramp-value writes); the real trace is always a prefix of it.
* The SPI bus is a transaction log: each device operation appends the
  read/write transactions it issues, and writes update a register file
  `Nat → Nat`.  The wire carries a 7-bit address (the code masks with 0x7F)
  and a 16-bit big-endian word (the code packs two bytes), so the log
  records `addr % 128` and `data % 65536` exactly as transmitted.
-/

/-- One SPI bus transaction as actually put on the wire: a register read of
`addr`, or a register write of the 16-bit word `data` to `addr`. -/
inductive Txn where
  | read (addr : Nat)
  | write (addr : Nat) (data : Nat)
deriving DecidableEq

/-- Device-interaction state: the list of bus transactions issued so far and
the device's register file (contents of each 7-bit address). -/
structure St where
  txns : List Txn
  regs : Nat → Nat

/-- Does transaction `t` write register `a`? -/
def writesReg (t : Txn) (a : Nat) : Bool :=
  match t with
  | .write b _ => b = a
  | .read _ => false

/-- The addresses written by a transaction list, in order. -/
def writeAddrs (l : List Txn) : List Nat :=
  l.filterMap (fun t => match t with
    | .write a _ => some a
    | .read _ => none)

/-- Python `int(q)`: truncation of a rational toward zero. -/
def pyInt (q : ℚ) : ℤ :=
  if q < 0 then -⌊-q⌋ else ⌊q⌋

/-- The loop body of `modify_word` (one iteration at bit index `i`):
`word &= 0xFFFF & ~(0x1 << i); word |= ((data >> (i - low)) & 0x0001) << i`.
Python's `0xFFFF & ~(1 << i)` is the 16-bit all-ones mask with bit `i`
removed when `i < 16` (and `0xFFFF` unchanged otherwise), which over `Nat`
is `0xFFFF ^^^ ((1 <<< i) &&& 0xFFFF)`. -/
def mwStep (data low : Nat) (word i : Nat) : Nat :=
  (word &&& (0xFFFF ^^^ ((0x1 <<< i) &&& 0xFFFF))) |||
    (((data >>> (i - low)) &&& 0x0001) <<< i)

/-- `modify_word(word, bits, data)` from `firmware/main.py`: for each bit
index `i` in the inclusive range `[bits.1, bits.2]`, clear bit `i` of `word`
(also clearing everything above bit 15) and insert bit `i - bits.1` of
`data`.  `for i in range(bits[0], bits[1] + 1)` is the fold over
`List.range' bits.1 (bits.2 + 1 - bits.1)`. -/
def modify_word (word : Nat) (bits : Nat × Nat) (data : Nat) : Nat :=
  (List.range' bits.1 (bits.2 + 1 - bits.1)).foldl (mwStep data bits.1) word

/-- `get_bits(word, bits)` from `firmware/main.py`: build the contiguous
mask of width `bits.2 - bits.1 + 1` (by the loop
`bitmask = (bitmask << 1) | 0x1`), shift it to `bits.1`, AND with `word`,
shift back down. -/
def get_bits (word : Nat) (bits : Nat × Nat) : Nat :=
  let bitmask :=
    (List.range' bits.1 (bits.2 + 1 - bits.1)).foldl (fun m _ => (m <<< 1) ||| 0x1) 0
  (word &&& (bitmask <<< bits.1)) >>> bits.1


namespace LMX2594

/-- The transaction log entry and register-file effect of the read half of a
bus operation (`read` in `firmware/main.py` sends `(addr & 0x7F) | 0x80` and
clocks two bytes back; the register file is untouched). -/
def postRead (st : St) (addr : Nat) : St :=
  ⟨st.txns ++ [Txn.read (addr % 128)], st.regs⟩

/-- The 16-bit word a `read` of `addr` returns: the device register selected
by the 7-bit wire address, as two bytes (hence reduced modulo `2 ^ 16`). -/
def readVal (st : St) (addr : Nat) : Nat :=
  st.regs (addr % 128) % 65536

/-- `read(addr)` from `firmware/main.py`: one read transaction, returning
the addressed 16-bit register word.  No address validation is performed;
the code only masks the address with `0x7F`. -/
def read (st : St) (addr : Nat) : St × Nat :=
  (postRead st addr, readVal st addr)

/-- `write(addr, data)` from `firmware/main.py`: one write transaction.
The address is masked with `0x7F` and the data is packed into two bytes
`(data >> 8) & 0xFF`, `data & 0xFF`, i.e. the wire carries `data mod 2^16`
(`Int.emod`, matching Python's arithmetic shift and mask on negative
values).  No address validation is performed. -/
def write (st : St) (addr : Nat) (data : ℤ) : St :=
  ⟨st.txns ++ [Txn.write (addr % 128) ((data % 65536).toNat)],
   fun a => if a = addr % 128 then (data % 65536).toNat else st.regs a⟩

/-- `modify(addr, bits, data)` from `firmware/main.py`: a read of the
register followed by a write of `modify_word(reg, bits, data)` — two bus
round trips, not atomic, and again without any address validation. -/
def modify (st : St) (addr : Nat) (bits : Nat × Nat) (data : Nat) : St :=
  write (postRead st addr) addr (modify_word (readVal st addr) bits data)

/-- `enable_readback_blind()`: a raw `write` of the magic word
`0b0010010000010000` (= 0x2410) to register 0; `modify` cannot be used
because reads are untrustworthy before this unlock. -/
def enable_readback_blind (st : St) : St :=
  write st 0x00 0b0010010000010000

/-- `enable_calibration(cal)`: toggle FCAL_EN, bit 3 of register 0 (the
`assert cal in [0,1]` precondition is reflected by the guard). -/
def enable_calibration (st : St) (cal : Nat) : St :=
  if cal = 0 ∨ cal = 1 then modify st 0 (3, 3) cal else st

/-- `program_vco_dividers(N, num, denom)`: N high bits first (register 34,
bits [0,2]) per datasheet, then N low 16 bits (register 36), then the
numerator (registers 42, 43) and denominator (registers 38, 39). -/
def program_vco_dividers (st : St) (N num denom : Nat) : St :=
  let st := modify st 34 (0, 2) (get_bits N (16, 18))
  let st := write st 36 (N &&& 0xFFFF : Nat)
  let st := write st 42 ((num >>> 16) &&& 0xFFFF : Nat)
  let st := write st 43 (num &&& 0xFFFF : Nat)
  let st := write st 38 ((denom >>> 16) &&& 0xFFFF : Nat)
  let st := write st 39 (denom &&& 0xFFFF : Nat)
  st

/-- `set_ramp_trig_type(ramp, trig)`: what triggers the given ramp
(register 101 bits [0,1] for RAMP0, register 105 bits [0,1] for RAMP1).
Both call sites in `configure_ramp` pass in-range constants, so the
`assert` preconditions of the Python function are satisfied there. -/
def set_ramp_trig_type (st : St) (ramp trig : Nat) : St :=
  if ramp = 0 then modify st 101 (0, 1) trig
  else if ramp = 1 then modify st 105 (0, 1) trig
  else st

/-- `set_ramp_trig(trig_idx, trig)`: trigger source select for trigger A
(register 97 bits [3,6]) or trigger B (register 97 bits [7,10]). -/
def set_ramp_trig (st : St) (trig_idx trig : Nat) : St :=
  if trig_idx = 0 then modify st 97 (3, 6) trig
  else if trig_idx = 1 then modify st 97 (7, 10) trig
  else st

/-- The pure value of `calc_f_pd` as a function of the register file:
`f_pd = f_osc_in * (OSC_2X + 1) / PLL_R_PRE * MULT / PLL_R`, with the
fields extracted from registers 9, 10, 11, 12 exactly as
`read_input_regs` does. -/
def f_pd_val (regs : Nat → Nat) (f_osc_in : ℚ) : ℚ :=
  f_osc_in * (get_bits (regs 9 % 65536) (12, 12) + 1)
    / (get_bits (regs 12 % 65536) (0, 11))
    * (get_bits (regs 10 % 65536) (7, 11))
    / (get_bits (regs 11 % 65536) (4, 11))

/-- `read_input_regs()`: reads registers 9, 10, 11, 12 in order and
extracts OSC_2X, MULT, PLL_R, PLL_R_PRE. -/
def read_input_regs (st : St) : St × Nat × Nat × Nat × Nat :=
  let r9 := readVal st 9
  let st := postRead st 9
  let r10 := readVal st 10
  let st := postRead st 10
  let r11 := readVal st 11
  let st := postRead st 11
  let r12 := readVal st 12
  let st := postRead st 12
  (st, get_bits r9 (12, 12), get_bits r10 (7, 11),
    get_bits r11 (4, 11), get_bits r12 (0, 11))

/-- `calc_f_pd()`: phase-detector frequency derived from the input-path
registers and the fixed reference `f_osc_in`. -/
def calc_f_pd (f_osc_in : ℚ) (st : St) : St × ℚ :=
  let p := read_input_regs st
  (p.1, f_osc_in * (p.2.1 + 1) / p.2.2.2.2 * p.2.2.1 / p.2.2.2.1)

/-- `read_divider_output_regs()`: reads registers 34 and 36–46 in order
(the Python loop skips 35) and assembles PLL_N (3 high bits from register
34 bits [0,2] plus register 36), PLL_NUM (registers 42:43) and PLL_DEN
(registers 38:39).  Only the fields `calc_f_vco` consumes are returned. -/
def read_divider_output_regs (st : St) : St × Nat × Nat × Nat :=
  let r34 := readVal st 34
  let st := postRead st 34
  let r36 := readVal st 36
  let st := postRead st 36
  let st := postRead st 37
  let r38 := readVal st 38
  let st := postRead st 38
  let r39 := readVal st 39
  let st := postRead st 39
  let st := postRead st 40
  let st := postRead st 41
  let r42 := readVal st 42
  let st := postRead st 42
  let r43 := readVal st 43
  let st := postRead st 43
  let st := postRead st 44
  let st := postRead st 45
  let st := postRead st 46
  (st, (get_bits r34 (0, 2) <<< 16) ||| r36, (r42 <<< 16) ||| r43,
    (r38 <<< 16) ||| r39)

/-- `calc_f_vco()`: reads the divider/output registers, then reads the
input registers again via `calc_f_pd`, and returns
`f_pd * (PLL_N + PLL_NUM / PLL_DEN)`. -/
def calc_f_vco (f_osc_in : ℚ) (st : St) : St × ℚ :=
  let d := read_divider_output_regs st
  let p := calc_f_pd f_osc_in d.1
  (p.1, p.2 * (d.2.1 + (d.2.2.1 : ℚ) / d.2.2.2))

/-- PLL_DEN as assembled by `read_divider_output_regs` from registers 38
and 39.  Python divides `PLL_NUM / PLL_DEN` at line 488 of `calc_f_vco`
and raises `ZeroDivisionError` when this value is zero, aborting
`configure_ramp` at line 663 before any write. -/
def pll_den_val (regs : Nat → Nat) : Nat :=
  ((regs 38 % 65536) <<< 16) ||| (regs 39 % 65536)

/-- `ramp_len = int(ramp_len_s * f_pd)` (line 683): the ramp length in
phase-detector cycles, truncated toward zero by Python `int()`. -/
def ramp_len_code (f_pd ramp_len_s : ℚ) : ℤ :=
  pyInt (ramp_len_s * f_pd)

/-- Well-definedness of line 684, `int(span_hz / f_pd * 16777216 /
ramp_len)`: Python raises `ZeroDivisionError` there when `f_pd` or
`ramp_len` is zero. -/
def ramp_div_ok (f_pd : ℚ) (ramp_len : ℤ) : Prop :=
  f_pd ≠ 0 ∧ ramp_len ≠ 0

instance (f : ℚ) (L : ℤ) : Decidable (ramp_div_ok f L) := by
  unfold ramp_div_ok; infer_instance

/-- The value of line 684 when its divisors are nonzero:
`ramp_inc = int(span_hz / f_pd * 16777216 / ramp_len)`, with
`0x40000000 - ramp_inc` substituted when a negative (descending) ramp is
requested (lines 688-689). -/
def ramp_inc_val (f_pd span_hz : ℚ) (ramp_len : ℤ) (neg_ramp : Bool) : ℤ :=
  let inc := pyInt (span_hz / f_pd * 16777216 / (ramp_len : ℚ))
  if neg_ramp then 0x40000000 - inc else inc

/-- The outcome of lines 684 and 688-689: `some` of the derived increment
when the divisions are defined, `none` when Python would raise
`ZeroDivisionError` (zero `f_pd` or zero `ramp_len`). -/
def ramp_inc_code (f_pd span_hz : ℚ) (ramp_len : ℤ) (neg_ramp : Bool) :
    Option ℤ :=
  if ramp_div_ok f_pd ramp_len then
    some (ramp_inc_val f_pd span_hz ramp_len neg_ramp)
  else none

/-- `ramp_thresh = int((thresh_hz / f_pd) * 16777216)` (line 685); the
division by `f_pd` is only reached when line 684 did not raise, which
guarantees `f_pd ≠ 0`. -/
def ramp_thresh_code (f_pd thresh_hz : ℚ) : ℤ :=
  pyInt (thresh_hz / f_pd * 16777216)

/-- The three range assertions of `configure_ramp` (lines 695-697):
`0 <= ramp_len <= 0xFFFF`, `0 <= ramp_inc <= 0x3FFFFFFF`,
`0 <= ramp_thresh <= 0x1FFFFFFF`. -/
def ramp_codes_ok (ramp_len ramp_inc ramp_thresh : ℤ) : Prop :=
  0 ≤ ramp_len ∧ ramp_len ≤ 0xFFFF ∧ 0 ≤ ramp_inc ∧ ramp_inc ≤ 0x3FFFFFFF ∧
    0 ≤ ramp_thresh ∧ ramp_thresh ≤ 0x1FFFFFFF

instance (a b c : ℤ) : Decidable (ramp_codes_ok a b c) := by
  unfold ramp_codes_ok; infer_instance

/-- Lines 662-663 of `configure_ramp`: `f_pd = self.calc_f_pd()` then
`f_vco = self.calc_f_vco()` — twenty read transactions in total, returning
the two derived frequencies. -/
def freq_reads (f_osc_in : ℚ) (st : St) : St × ℚ × ℚ :=
  let p := calc_f_pd f_osc_in st
  let q := calc_f_vco f_osc_in p.1
  (q.1, p.2, q.2)

/-- Lines 665-680 of `configure_ramp`: the trigger/mode configuration
writes issued before the ramp values are derived and range-checked —
automatic ramping mode (105[5]=0), the two trigger selections (free-run or
RampClk via registers 101 and 97), RAMP0-follows-RAMP0 (101[4]=0), reset
ramp at start (97[15]=1), no VCO recal after ramp (106[4]=0), LD_DLY=0
(register 60), RAMP_SCALE_COUNT=1 (106[0:2]), quick recal (78[9]=1). -/
def ramp_setup (st : St) (free_run : Bool) : St :=
  let st := modify st 105 (5, 5) 0
  let st :=
    if free_run then
      let st := set_ramp_trig_type st 0 0
      set_ramp_trig st 0 0
    else
      let st := set_ramp_trig_type st 0 1
      set_ramp_trig st 0 1
  let st := modify st 101 (4, 4) 0
  let st := modify st 97 (15, 15) 1
  let st := modify st 106 (4, 4) 0
  let st := write st 60 0
  let st := modify st 106 (0, 2) 1
  modify st 78 (9, 9) 1

/-- Lines 699-722 of `configure_ramp`: the writes issued after the three
range assertions pass — RAMP0_INC split over registers 98/99, RAMP0_LEN to
register 100, RAMP_THRESH split over 78[11]/79/80, then the guard-band
ramp limits over 81/82/83 and 84/85/86.  Values written with Python's
`(x >> k) & mask` on a possibly negative int are rendered
`x / 2^k % (mask+1)` over `ℤ`, which coincides with Python's
arithmetic-shift-and-mask semantics. -/
def ramp_commit (st : St) (ramp_len ramp_inc ramp_thresh : ℤ)
    (f_pd f_vco span_hz : ℚ) : St :=
  let st := modify st 98 (2, 15) ((ramp_inc / 65536 % 16384).toNat)
  let st := write st 99 (ramp_inc % 65536)
  let st := write st 100 ramp_len
  let st := modify st 78 (11, 11) ((ramp_thresh / 4294967296 % 2).toNat)
  let st := write st 79 (ramp_thresh / 65536 % 65536)
  let st := write st 80 (ramp_thresh % 65536)
  let f_high := f_vco + span_hz * 2
  let f_low := f_vco - span_hz * 2
  let ramp_high := pyInt ((f_high - f_vco) / f_pd * 16777216)
  let ramp_low := pyInt (0x200000000 - 16777216 * (f_vco - f_low) / f_pd)
  let st := modify st 81 (0, 0) ((ramp_high / 4294967296 % 2).toNat)
  let st := write st 82 (ramp_high / 65536 % 65536)
  let st := write st 83 (ramp_high % 65536)
  let st := modify st 84 (0, 0) ((ramp_low / 4294967296 % 2).toNat)
  let st := write st 85 (ramp_low / 65536 % 65536)
  write st 86 (ramp_low % 65536)

/-- `configure_ramp(span_hz, ramp_len_s, thresh_hz, neg_ramp, free_run)`
from `firmware/main.py` lines 646-722, as a transition on the bus/register
state: the frequency reads, then the trigger/mode setup writes, then the
derivation of the three ramp codes, then the range assertions, and only
then the ramp-value writes.  The returned Bool is `true` exactly when the
Python call completes: no `ZeroDivisionError` and all three range
assertions pass, so the ramp values are written.  It is `false` when the
call aborts, which happens in three ways, none of them issuing any
ramp-value write: `PLL_DEN = 0` raises at line 663 (modelled by the
`pll_den_val st.regs ≠ 0` conjunct; the real trace then stops inside the
frequency reads, a prefix of the modelled abort trace), `f_pd = 0` or
`ramp_len = 0` raises at line 684 (the `ramp_div_ok` conjunct, checked
before the range assertions just as Python raises before reaching the
asserts), or an assertion fires at lines 695-697 (the `ramp_codes_ok`
conjunct; Python checks the three asserts in sequence, but nothing is
issued between them, so one combined guard is observationally
identical). -/
def configure_ramp (st : St) (f_osc_in span_hz ramp_len_s thresh_hz : ℚ)
    (neg_ramp free_run : Bool) : St × Bool :=
  let q := freq_reads f_osc_in st
  let f_pd := q.2.1
  let f_vco := q.2.2
  let st2 := ramp_setup q.1 free_run
  let ramp_len := ramp_len_code f_pd ramp_len_s
  let ramp_inc := ramp_inc_val f_pd span_hz ramp_len neg_ramp
  let ramp_thresh := ramp_thresh_code f_pd thresh_hz
  if ramp_div_ok f_pd ramp_len ∧ pll_den_val st.regs ≠ 0 ∧
      ramp_codes_ok ramp_len ramp_inc ramp_thresh then
    (ramp_commit st2 ramp_len ramp_inc ramp_thresh f_pd f_vco span_hz, true)
  else (st2, false)

end LMX2594

/-- Frame relation between two bus/register states: `TouchesOnly S st1 st2`
says `st2` evolved from `st1` by appending transactions whose writes all
target addresses in `S`, leaving every register outside `S` unchanged. -/
def TouchesOnly (S : List Nat) (st1 st2 : St) : Prop :=
  (∀ a : Nat, a ∈ S ∨ st2.regs a = st1.regs a) ∧
  ∃ new : List Txn, st2.txns = st1.txns ++ new ∧
    ∀ t ∈ new, ∀ b : Nat, writesReg t b = true → b ∈ S

/-- A concrete register file for instantiating the ramp theorems: with
`f_osc_in = 1` it yields OSC_2X = 0, MULT = 1, PLL_R = 1, PLL_R_PRE = 1
(so `f_pd = 1`), PLL_N = PLL_NUM = 0, PLL_DEN = 1 (so `f_vco = 0`, with no
division by zero anywhere), and register 60 initially holds 5. -/
def testFile : Nat → Nat := fun a =>
  if a = 10 then 128 else if a = 11 then 16 else if a = 12 then 1
  else if a = 39 then 1 else if a = 60 then 5 else 0


section BitLemmas

/-- `(m <<< 1) ||| 1` is `2 * m + 1`. -/
lemma shiftLeft_one_or_one (m : Nat) : (m <<< 1) ||| 1 = 2 * m + 1 := by
  apply Nat.eq_of_testBit_eq
  intro j
  cases j with
  | zero =>
    simp [Nat.testBit_or, Nat.testBit_shiftLeft, Nat.add_mul_mod_self_left, Nat.add_comm]
  | succ j =>
    have h2 : (2 * m + 1) / 2 = m := by omega
    have h1 : (1 : Nat).testBit (j + 1) = false := by simp [Nat.testBit_succ]
    rw [Nat.testBit_or, h1, Nat.testBit_shiftLeft]
    simp [Nat.testBit_succ, h2]

/-- The `get_bits` mask loop builds `(m + 1) * 2 ^ n - 1` from accumulator
`m` over any list of length `n`. -/
lemma foldl_mask {α : Type} (L : List α) :
    ∀ m : Nat, L.foldl (fun m _ => (m <<< 1) ||| 0x1) m = (m + 1) * 2 ^ L.length - 1 := by
  induction L with
  | nil => intro m; simp
  | cons a L ih =>
    intro m
    rw [List.foldl_cons, ih, shiftLeft_one_or_one]
    have : (2 * m + 1 + 1) * 2 ^ L.length = (m + 1) * 2 ^ (L.length + 1) := by ring
    simp only [List.length_cons]
    omega

/-- `get_bits` extracts the addressed field: it equals shifting down by the
low index and reducing modulo the field width. -/
lemma get_bits_eq (word : Nat) (l h : Nat) :
    get_bits word (l, h) = (word >>> l) % 2 ^ (h + 1 - l) := by
  unfold get_bits
  rw [foldl_mask]
  simp only [List.length_range', Nat.zero_add, Nat.one_mul]
  apply Nat.eq_of_testBit_eq
  intro j
  simp only [Nat.testBit_shiftRight, Nat.testBit_and, Nat.testBit_shiftLeft,
    Nat.testBit_two_pow_sub_one, Nat.testBit_mod_two_pow]
  by_cases hj : j < h + 1 - l
  · simp [hj, Nat.le_add_right, Nat.add_sub_cancel_left, Bool.and_comm]
  · simp [hj, Nat.le_add_right, Nat.add_sub_cancel_left]

/-- Bit-level description of one `modify_word` iteration at index `i < 16`. -/
lemma mwStep_testBit (data low word i j : Nat) (hi : i < 16) :
    (mwStep data low word i).testBit j =
      ((word.testBit j && decide (j < 16) && !decide (j = i)) ||
        (decide (j = i) && data.testBit (i - low))) := by
  unfold mwStep
  have h16 : (0xFFFF : Nat) = 2 ^ 16 - 1 := by norm_num
  have hsh : (0x1 <<< i : Nat) = 2 ^ i := by
    rw [Nat.shiftLeft_eq, Nat.one_mul]
  simp only [h16, hsh, Nat.testBit_or, Nat.testBit_and, Nat.testBit_xor,
    Nat.testBit_shiftLeft, Nat.testBit_shiftRight, Nat.testBit_two_pow_sub_one,
    Nat.testBit_two_pow]
  by_cases hj : j = i
  · subst hj
    have h1 : (1 : Nat).testBit 0 = true := by decide
    simp [hi, Nat.testBit_two_pow, h1, Nat.le_refl, Nat.sub_self]
  · by_cases hj16 : j < 16
    · by_cases hij : i ≤ j
      · have hij2 : i ≠ j := fun h => hj h.symm
        have hd : j - i ≠ 0 := by omega
        rcases Nat.exists_eq_succ_of_ne_zero hd with ⟨k, hk⟩
        have h1 : (1 : Nat).testBit (k + 1) = false := by
          simp [Nat.testBit_succ]
        simp [hj, hj16, hij, hij2, hk, h1]
      · have hij2 : i ≠ j := fun h => hj h.symm
        simp [hj, hj16, hij, hij2]
    · have hji : ¬ j < i := by omega
      have hij2 : i ≠ j := fun h => hj h.symm
      by_cases hij : i ≤ j
      · have hd : j - i ≠ 0 := by omega
        rcases Nat.exists_eq_succ_of_ne_zero hd with ⟨k, hk⟩
        have h1 : (1 : Nat).testBit (k + 1) = false := by
          simp [Nat.testBit_succ]
        simp [hj, hj16, hij, hij2, hk, h1]
      · simp [hj, hj16, hij, hij2]

/-- Bit-level description of the whole `modify_word` fold over
`range' l n`, where the data shift is anchored at `low ≤ l`. -/
lemma foldl_mwStep_testBit (data low : Nat) :
    ∀ (n l word j : Nat), low ≤ l → l + n ≤ 16 →
      ((List.range' l n).foldl (mwStep data low) word).testBit j =
        if l ≤ j ∧ j < l + n then data.testBit (j - low)
        else if n = 0 then word.testBit j
        else word.testBit j && decide (j < 16) := by
  intro n
  induction n with
  | zero =>
    intro l word j _ _
    have h0 : ¬ (l ≤ j ∧ j < l) := by omega
    simp [h0]
  | succ n ih =>
    intro l word j hlow hn
    rw [List.range'_succ, List.foldl_cons]
    rw [ih (l + 1) (mwStep data low word l) j (by omega) (by omega)]
    rw [mwStep_testBit data low word l j (by omega)]
    by_cases hj : j = l
    · subst hj
      have c1 : ¬ (j + 1 ≤ j ∧ j < j + 1 + n) := by omega
      have c2 : j ≤ j ∧ j < j + (n + 1) := by omega
      have hj16 : j < 16 := by omega
      rcases Nat.eq_zero_or_pos n with hn0 | hn0
      · subst hn0; simp [c1, c2, hj16]
      · have : n ≠ 0 := by omega
        simp [c1, c2, hj16, this]
    · have hne : ¬ decide (j = l) = true := by simp [hj]
      by_cases hin : l + 1 ≤ j ∧ j < l + 1 + n
      · have c2 : l ≤ j ∧ j < l + (n + 1) := by omega
        simp [hin, c2]
      · have c2 : ¬ (l ≤ j ∧ j < l + (n + 1)) := by omega
        rcases Nat.eq_zero_or_pos n with hn0 | hn0
        · subst hn0
          simp only [if_neg hin, if_pos rfl, if_neg c2]
          simp [hj]
        · have hnz : n ≠ 0 := by omega
          simp only [if_neg hin, if_neg hnz, if_neg c2]
          by_cases hj16 : j < 16
          · simp [hj, hj16]
          · simp [hj, hj16]

/-- Bit-level description of `modify_word` on a proper 16-bit range: bits in
`[l, h]` come from `data`, bits outside come from `word` (with everything
above bit 15 cleared). -/
lemma modify_word_testBit (word l h data j : Nat) (hlh : l ≤ h) (hh : h ≤ 15) :
    (modify_word word (l, h) data).testBit j =
      if l ≤ j ∧ j ≤ h then data.testBit (j - l)
      else word.testBit j && decide (j < 16) := by
  unfold modify_word
  rw [foldl_mwStep_testBit data l (h + 1 - l) l word j le_rfl (by omega)]
  have hne : h + 1 - l ≠ 0 := by omega
  by_cases hj : l ≤ j ∧ j < l + (h + 1 - l)
  · have hj2 : l ≤ j ∧ j ≤ h := by omega
    simp [hj, hj2]
  · have hj2 : ¬ (l ≤ j ∧ j ≤ h) := by omega
    simp [hj, hj2, hne]

/-- `modify_word` on a proper 16-bit range always produces a 16-bit word. -/
lemma modify_word_lt (word l h data : Nat) (hlh : l ≤ h) (hh : h ≤ 15) :
    modify_word word (l, h) data < 2 ^ 16 := by
  apply Nat.lt_pow_two_of_testBit
  intro i hi
  rw [modify_word_testBit word l h data i hlh hh]
  have h1 : ¬ (l ≤ i ∧ i ≤ h) := by omega
  have h2 : ¬ i < 16 := by omega
  simp [h1, h2]

/-- Reading back the field just written recovers the data modulo the field
width. -/
lemma get_bits_modify_word (word l h data : Nat) (hlh : l ≤ h) (hh : h ≤ 15) :
    get_bits (modify_word word (l, h) data) (l, h) = data % 2 ^ (h - l + 1) := by
  rw [get_bits_eq]
  apply Nat.eq_of_testBit_eq
  intro j
  simp only [Nat.testBit_mod_two_pow, Nat.testBit_shiftRight]
  rw [modify_word_testBit word l h data (l + j) hlh hh]
  by_cases hj : j < h + 1 - l
  · have hc : l ≤ l + j ∧ l + j ≤ h := by omega
    have hj2 : j < h - l + 1 := by omega
    simp [hj, hj2, hc, Nat.add_sub_cancel_left]
  · have hc : ¬ (l ≤ l + j ∧ l + j ≤ h) := by omega
    have hj2 : ¬ j < h - l + 1 := by omega
    simp [hj, hj2, hc]

/-- `modify_word` only looks at the low 16 bits of the incoming word. -/
lemma modify_word_mod (word l h data : Nat) (hlh : l ≤ h) (hh : h ≤ 15) :
    modify_word word (l, h) data = modify_word (word % 2 ^ 16) (l, h) data := by
  apply Nat.eq_of_testBit_eq
  intro j
  rw [modify_word_testBit word l h data j hlh hh,
    modify_word_testBit (word % 2 ^ 16) l h data j hlh hh,
    Nat.testBit_mod_two_pow]
  by_cases hc : l ≤ j ∧ j ≤ h
  · simp [hc]
  · by_cases hj : j < 16
    · simp [hc, hj]
    · simp [hc, hj]

/-- `get_bits` on a 16-bit range only looks at the low 16 bits of the word. -/
lemma get_bits_mod (word l h : Nat) (hh : h ≤ 15) :
    get_bits word (l, h) = get_bits (word % 2 ^ 16) (l, h) := by
  rw [get_bits_eq, get_bits_eq]
  apply Nat.eq_of_testBit_eq
  intro j
  simp only [Nat.testBit_mod_two_pow, Nat.testBit_shiftRight]
  by_cases hj : j < h + 1 - l
  · have : l + j < 16 := by omega
    simp [hj, this]
  · simp [hj]

end BitLemmas

section BitClaims

/-- C4: for every 16-bit word, every bit range `[l, h]` with
`0 ≤ l ≤ h ≤ 15`, and every data value, `get_bits` applied to the same
range after `set_bits` (the firmware's `modify_word`) returns exactly the
low `h - l + 1` bits of the data, i.e. `data % 2 ^ (h - l + 1)`,
independent of the original word and of data bits above position `h - l`;
in particular it returns `0` for data `0` and `(1 <<< (h - l + 1)) - 1`
for all-ones data. -/
theorem get_bits_after_set_bits (word l h data : Nat) (hw : word < 2 ^ 16)
    (hlh : l ≤ h) (hh : h ≤ 15) :
    get_bits (modify_word word (l, h) data) (l, h) = data % 2 ^ (h - l + 1) ∧
    get_bits (modify_word word (l, h) 0) (l, h) = 0 ∧
    get_bits (modify_word word (l, h) (2 ^ (h - l + 1) - 1)) (l, h) =
      (1 <<< (h - l + 1)) - 1 := by
  refine ⟨get_bits_modify_word word l h data hlh hh, ?_, ?_⟩
  · rw [get_bits_modify_word word l h 0 hlh hh]
    simp
  · rw [get_bits_modify_word word l h (2 ^ (h - l + 1) - 1) hlh hh,
      Nat.shiftLeft_eq, Nat.one_mul]
    exact Nat.mod_eq_of_lt (by
      have : 0 < 2 ^ (h - l + 1) := Nat.pos_pow_of_pos _ (by norm_num)
      omega)

/-- Witness for C4 at `word = 0xABCD`, range `[4, 11]`, `data = 999`:
`999 % 256 = 231`. -/
theorem get_bits_after_set_bits_witness :
    (0xABCD : Nat) < 2 ^ 16 ∧ (4 : Nat) ≤ 11 ∧ (11 : Nat) ≤ 15 ∧
    (get_bits (modify_word 0xABCD (4, 11) 999) (4, 11) = 999 % 2 ^ (11 - 4 + 1) ∧
      get_bits (modify_word 0xABCD (4, 11) 0) (4, 11) = 0 ∧
      get_bits (modify_word 0xABCD (4, 11) (2 ^ (11 - 4 + 1) - 1)) (4, 11) =
        (1 <<< (11 - 4 + 1)) - 1) :=
  ⟨by decide, by decide, by decide,
    get_bits_after_set_bits 0xABCD 4 11 999 (by decide) (by decide) (by decide)⟩

/-- C9: on every proper 16-bit range, `set_bits` (`modify_word`) and
`get_bits` operate modulo `2 ^ 16`: their results depend only on
`word % 2 ^ 16`, and the result of `set_bits` is always below `2 ^ 16`
even when the input word is not. -/
theorem bitfield_ops_mod_two_pow_sixteen (word l h data : Nat)
    (hlh : l ≤ h) (hh : h ≤ 15) :
    modify_word word (l, h) data = modify_word (word % 2 ^ 16) (l, h) data ∧
    get_bits word (l, h) = get_bits (word % 2 ^ 16) (l, h) ∧
    modify_word word (l, h) data < 2 ^ 16 :=
  ⟨modify_word_mod word l h data hlh hh, get_bits_mod word l h hh,
    modify_word_lt word l h data hlh hh⟩

/-- Witness for C9 at `word = 2 ^ 20 + 5` (not a 16-bit value), range
`[2, 5]`, `data = 9`. -/
theorem bitfield_ops_mod_two_pow_sixteen_witness :
    (2 : Nat) ≤ 5 ∧ (5 : Nat) ≤ 15 ∧
    (modify_word (2 ^ 20 + 5) (2, 5) 9 = modify_word ((2 ^ 20 + 5) % 2 ^ 16) (2, 5) 9 ∧
      get_bits (2 ^ 20 + 5) (2, 5) = get_bits ((2 ^ 20 + 5) % 2 ^ 16) (2, 5) ∧
      modify_word (2 ^ 20 + 5) (2, 5) 9 < 2 ^ 16) :=
  ⟨by decide, by decide,
    bitfield_ops_mod_two_pow_sixteen (2 ^ 20 + 5) 2 5 9 (by decide) (by decide)⟩

/-- C10: for every 16-bit word, every range `[l, h]` with
`0 ≤ l ≤ h ≤ 15`, and every data value, each bit of
`set_bits word [l, h] data` outside `[l, h]` equals the corresponding bit
of the original word — `set_bits` disturbs only the addressed range. -/
theorem set_bits_frame (word l h data j : Nat) (hw : word < 2 ^ 16)
    (hlh : l ≤ h) (hh : h ≤ 15) (hj : j < l ∨ h < j) :
    (modify_word word (l, h) data).testBit j = word.testBit j := by
  rw [modify_word_testBit word l h data j hlh hh]
  have hc : ¬ (l ≤ j ∧ j ≤ h) := by omega
  by_cases h16 : j < 16
  · simp [hc, h16]
  · have hz : word.testBit j = false :=
      Nat.testBit_lt_two_pow
        (lt_of_lt_of_le hw (Nat.pow_le_pow_right (by norm_num) (by omega)))
    simp [hc, h16, hz]

/-- Witness for C10 at `word = 0xABCD`, range `[4, 11]`, `data = 999`,
bit `j = 2` (below the range). -/
theorem set_bits_frame_witness :
    (0xABCD : Nat) < 2 ^ 16 ∧ (4 : Nat) ≤ 11 ∧ (11 : Nat) ≤ 15 ∧
    ((2 : Nat) < 4 ∨ (11 : Nat) < 2) ∧
    (modify_word 0xABCD (4, 11) 999).testBit 2 = (0xABCD : Nat).testBit 2 :=
  ⟨by decide, by decide, by decide, by decide,
    set_bits_frame 0xABCD 4 11 999 2 (by decide) (by decide) (by decide)
      (by decide)⟩

end BitClaims

section AccessClaims

/-- C8: the readback-unlock operation `enable_readback_blind` performs
exactly one raw full-register write of the 16-bit word 0x2410 to register
0, and issues no read and no read-modify-write. -/
theorem enable_readback_blind_single_write (r : Nat → Nat) :
    (LMX2594.enable_readback_blind ⟨[], r⟩).txns = [Txn.write 0 0x2410] := by
  simp [LMX2594.enable_readback_blind, LMX2594.write]

/-- Counterexample to C6: at register address 113, `read`, `write` and
`modify` each issue their bus transaction(s) rather than rejecting the
address — there is no address validation in the code at all. -/
theorem register_access_no_reject_cex :
    (LMX2594.read ⟨[], fun _ => 0⟩ 113).1.txns = [Txn.read 113] ∧
    (LMX2594.write ⟨[], fun _ => 0⟩ 113 0).txns = [Txn.write 113 0] ∧
    (LMX2594.modify ⟨[], fun _ => 0⟩ 113 (0, 0) 1).txns =
      [Txn.read 113, Txn.write 113 1] := by
  refine ⟨?_, ?_, ?_⟩ <;>
    simp [LMX2594.read, LMX2594.write, LMX2594.modify, LMX2594.postRead,
      LMX2594.readVal] <;> decide

/-- C6 amended: for every register address of 113 or above, the register
access operations perform no validation and do not reject the address:
`read` issues its read transaction, `write` issues its write transaction,
and `modify` issues a read followed by a write, in every case with the
address reduced modulo 128 (the 7-bit wire address `addr & 0x7F`). -/
theorem register_access_masks_address (r : Nat → Nat) (addr : Nat)
    (data : ℤ) (bits : Nat × Nat) (d : Nat) (haddr : 113 ≤ addr) :
    (LMX2594.read ⟨[], r⟩ addr).1.txns = [Txn.read (addr % 128)] ∧
    (LMX2594.write ⟨[], r⟩ addr data).txns =
      [Txn.write (addr % 128) ((data % 65536).toNat)] ∧
    (LMX2594.modify ⟨[], r⟩ addr bits d).txns =
      [Txn.read (addr % 128),
        Txn.write (addr % 128)
          (((modify_word (LMX2594.readVal ⟨[], r⟩ addr) bits d : ℤ) % 65536).toNat)] := by
  refine ⟨rfl, rfl, ?_⟩
  simp [LMX2594.modify, LMX2594.write, LMX2594.postRead]

/-- Witness for the amended C6 at address 113 on an all-zero register
file. -/
theorem register_access_masks_address_witness :
    (113 : Nat) ≤ 113 ∧
    ((LMX2594.read ⟨[], fun _ => 1⟩ 113).1.txns = [Txn.read (113 % 128)] ∧
      (LMX2594.write ⟨[], fun _ => 1⟩ 113 7).txns =
        [Txn.write (113 % 128) (((7 : ℤ) % 65536).toNat)] ∧
      (LMX2594.modify ⟨[], fun _ => 1⟩ 113 (0, 1) 2).txns =
        [Txn.read (113 % 128),
          Txn.write (113 % 128)
            (((modify_word (LMX2594.readVal ⟨[], fun _ => 1⟩ 113) (0, 1) 2 : ℤ) %
              65536).toNat)]) :=
  ⟨by decide, register_access_masks_address (fun _ => 1) 113 7 (0, 1) 2 (by decide)⟩

end AccessClaims

section DividerClaims

/-- The transaction trace of `program_vco_dividers`: the read-modify-write
of register 34 (N high bits) first, then the write of register 36 (N low
bits), then numerator and denominator writes. -/
lemma program_vco_dividers_txns (r : Nat → Nat) (N num denom : Nat) :
    (LMX2594.program_vco_dividers ⟨[], r⟩ N num denom).txns =
      [Txn.read 34,
        Txn.write 34
          (((modify_word (r 34 % 65536) (0, 2) (get_bits N (16, 18)) : ℤ) % 65536).toNat),
        Txn.write 36 (((N &&& 0xFFFF : Nat) : ℤ) % 65536).toNat,
        Txn.write 42 ((((num >>> 16) &&& 0xFFFF : Nat) : ℤ) % 65536).toNat,
        Txn.write 43 (((num &&& 0xFFFF : Nat) : ℤ) % 65536).toNat,
        Txn.write 38 ((((denom >>> 16) &&& 0xFFFF : Nat) : ℤ) % 65536).toNat,
        Txn.write 39 (((denom &&& 0xFFFF : Nat) : ℤ) % 65536).toNat] := by
  simp [LMX2594.program_vco_dividers, LMX2594.modify, LMX2594.write,
    LMX2594.postRead, LMX2594.readVal]

/-- C5: in every execution of `program_vco_dividers`, the write that
programs the integer divider's 3 high bits (register 34, bits [0,2])
occurs before the write of its low 16 bits (register 36); no write to
register 36 ever precedes the high-bits write within the call. -/
theorem program_vco_dividers_writes_N_high_first (r : Nat → Nat)
    (N num denom : Nat) (i j x y : Nat)
    (hx : (LMX2594.program_vco_dividers ⟨[], r⟩ N num denom).txns[i]? =
      some (Txn.write 34 x))
    (hy : (LMX2594.program_vco_dividers ⟨[], r⟩ N num denom).txns[j]? =
      some (Txn.write 36 y)) :
    i < j := by
  rw [program_vco_dividers_txns] at hx hy
  rcases i with _ | _ | _ | _ | _ | _ | _ | i <;>
    rcases j with _ | _ | _ | _ | _ | _ | _ | j <;>
    simp_all

/-- Witness for C5 on an all-zero register file with `N = num = denom = 0`:
the register-34 write sits at index 1 and the register-36 write at
index 2. -/
theorem program_vco_dividers_writes_N_high_first_witness :
    ((LMX2594.program_vco_dividers ⟨[], fun _ => 0⟩ 0 0 0).txns[1]? =
      some (Txn.write 34 0) ∧
     (LMX2594.program_vco_dividers ⟨[], fun _ => 0⟩ 0 0 0).txns[2]? =
      some (Txn.write 36 0)) ∧ 1 < 2 :=
  ⟨⟨by decide, by decide⟩,
    program_vco_dividers_writes_N_high_first (fun _ => 0) 0 0 0 1 2 0 0
      (by decide) (by decide)⟩

end DividerClaims

section MachineLemmas

open LMX2594

lemma postRead_txns (st : St) (a : Nat) :
    (postRead st a).txns = st.txns ++ [Txn.read (a % 128)] := rfl

lemma postRead_regs (st : St) (a : Nat) : (postRead st a).regs = st.regs := rfl

lemma write_txns (st : St) (a : Nat) (d : ℤ) :
    (LMX2594.write st a d).txns =
      st.txns ++ [Txn.write (a % 128) ((d % 65536).toNat)] := rfl

lemma write_regs (st : St) (a : Nat) (d : ℤ) (b : Nat) :
    (LMX2594.write st a d).regs b =
      if b = a % 128 then (d % 65536).toNat else st.regs b := rfl

lemma modify_txns (st : St) (a : Nat) (bits : Nat × Nat) (d : Nat) :
    (LMX2594.modify st a bits d).txns =
      st.txns ++ [Txn.read (a % 128),
        Txn.write (a % 128)
          (((modify_word (readVal st a) bits d : ℤ) % 65536).toNat)] := by
  simp [LMX2594.modify, LMX2594.write, postRead]

lemma modify_regs (st : St) (a : Nat) (bits : Nat × Nat) (d : Nat) (b : Nat) :
    (LMX2594.modify st a bits d).regs b =
      if b = a % 128 then
        (((modify_word (readVal st a) bits d : ℤ) % 65536).toNat)
      else st.regs b := rfl

lemma modify_readVal (st : St) (a : Nat) (bits : Nat × Nat) (d : Nat) (b : Nat)
    (h : b % 128 ≠ a % 128) :
    readVal (LMX2594.modify st a bits d) b = readVal st b := by
  simp [readVal, modify_regs, h]

lemma write_readVal (st : St) (a : Nat) (d : ℤ) (b : Nat)
    (h : b % 128 ≠ a % 128) :
    readVal (LMX2594.write st a d) b = readVal st b := by
  simp [readVal, write_regs, h]

lemma postRead_readVal (st : St) (a b : Nat) :
    readVal (postRead st a) b = readVal st b := rfl

lemma touchesOnly_self (S : List Nat) (st : St) : TouchesOnly S st st :=
  ⟨fun _ => Or.inr rfl, [], by simp, by simp⟩

lemma TouchesOnly.step {S : List Nat} {st1 st2 st3 : St}
    (h1 : TouchesOnly S st1 st2) (h2 : TouchesOnly S st2 st3) :
    TouchesOnly S st1 st3 := by
  obtain ⟨hr1, n1, ht1, hw1⟩ := h1
  obtain ⟨hr2, n2, ht2, hw2⟩ := h2
  refine ⟨?_, n1 ++ n2, by simp [ht2, ht1], ?_⟩
  · intro a
    rcases hr2 a with h | h
    · exact Or.inl h
    · rcases hr1 a with g | g
      · exact Or.inl g
      · exact Or.inr (h.trans g)
  · intro t ht b hb
    rcases List.mem_append.mp ht with h | h
    · exact hw1 t h b hb
    · exact hw2 t h b hb

lemma touchesOnly_postRead (S : List Nat) (st : St) (a : Nat) :
    TouchesOnly S st (postRead st a) :=
  ⟨fun _ => Or.inr rfl, [Txn.read (a % 128)], rfl, by simp [writesReg]⟩

lemma touchesOnly_write (S : List Nat) (st : St) (a : Nat) (d : ℤ)
    (h : a % 128 ∈ S) : TouchesOnly S st (LMX2594.write st a d) := by
  refine ⟨?_, [Txn.write (a % 128) ((d % 65536).toNat)], rfl, ?_⟩
  · intro b
    by_cases hb : b = a % 128
    · exact Or.inl (hb ▸ h)
    · exact Or.inr (by simp [write_regs, hb])
  · intro t ht b hb
    simp only [List.mem_singleton] at ht
    subst ht
    simp only [writesReg, decide_eq_true_eq] at hb
    exact hb ▸ h

lemma touchesOnly_modify (S : List Nat) (st : St) (a : Nat)
    (bits : Nat × Nat) (d : Nat) (h : a % 128 ∈ S) :
    TouchesOnly S st (LMX2594.modify st a bits d) :=
  (touchesOnly_postRead S st a).step (touchesOnly_write S _ a _ h)

end MachineLemmas

section PhaseLemmas

open LMX2594

lemma set_ramp_trig_type_zero (st : St) (t : Nat) :
    set_ramp_trig_type st 0 t = LMX2594.modify st 101 (0, 1) t := by
  simp [set_ramp_trig_type]

lemma set_ramp_trig_zero (st : St) (t : Nat) :
    set_ramp_trig st 0 t = LMX2594.modify st 97 (3, 6) t := by
  simp [set_ramp_trig]

lemma freq_reads_fst (f : ℚ) (st : St) :
    (freq_reads f st).1 =
      ⟨st.txns ++ [Txn.read 9, Txn.read 10, Txn.read 11, Txn.read 12,
        Txn.read 34, Txn.read 36, Txn.read 37, Txn.read 38, Txn.read 39,
        Txn.read 40, Txn.read 41, Txn.read 42, Txn.read 43, Txn.read 44,
        Txn.read 45, Txn.read 46, Txn.read 9, Txn.read 10, Txn.read 11,
        Txn.read 12], st.regs⟩ := by
  simp [freq_reads, calc_f_pd, calc_f_vco, read_input_regs,
    read_divider_output_regs, postRead]

lemma freq_reads_f_pd (f : ℚ) (st : St) :
    (freq_reads f st).2.1 = f_pd_val st.regs f := by
  simp [freq_reads, calc_f_pd, calc_f_vco, read_input_regs,
    read_divider_output_regs, postRead, readVal, f_pd_val]

lemma touchesOnly_freq_reads (S : List Nat) (st : St) (f : ℚ) :
    TouchesOnly S st (freq_reads f st).1 := by
  rw [freq_reads_fst]
  refine ⟨fun a => Or.inr rfl,
    [Txn.read 9, Txn.read 10, Txn.read 11, Txn.read 12,
      Txn.read 34, Txn.read 36, Txn.read 37, Txn.read 38, Txn.read 39,
      Txn.read 40, Txn.read 41, Txn.read 42, Txn.read 43, Txn.read 44,
      Txn.read 45, Txn.read 46, Txn.read 9, Txn.read 10, Txn.read 11,
      Txn.read 12], rfl, ?_⟩
  intro t ht b hb
  fin_cases ht <;> simp [writesReg] at hb

lemma touchesOnly_ramp_setup (st : St) (fr : Bool) :
    TouchesOnly [105, 101, 97, 106, 60, 78] st (ramp_setup st fr) := by
  unfold ramp_setup
  cases fr <;>
    simp only [set_ramp_trig_type_zero, set_ramp_trig_zero, if_true,
      if_false, Bool.false_eq_true, Bool.true_eq_false, ite_true, ite_false] <;>
  · refine TouchesOnly.step ?_ (touchesOnly_modify _ _ 78 _ _ (by decide))
    refine TouchesOnly.step ?_ (touchesOnly_modify _ _ 106 _ _ (by decide))
    refine TouchesOnly.step ?_ (touchesOnly_write _ _ 60 _ (by decide))
    refine TouchesOnly.step ?_ (touchesOnly_modify _ _ 106 _ _ (by decide))
    refine TouchesOnly.step ?_ (touchesOnly_modify _ _ 97 _ _ (by decide))
    refine TouchesOnly.step ?_ (touchesOnly_modify _ _ 101 _ _ (by decide))
    refine TouchesOnly.step ?_ (touchesOnly_modify _ _ 97 _ _ (by decide))
    refine TouchesOnly.step ?_ (touchesOnly_modify _ _ 101 _ _ (by decide))
    refine touchesOnly_modify _ _ 105 _ _ (by decide)

lemma touchesOnly_ramp_commit (st : St) (L I T : ℤ) (f fv s : ℚ) :
    TouchesOnly [98, 99, 100, 78, 79, 80, 81, 82, 83, 84, 85, 86] st
      (ramp_commit st L I T f fv s) := by
  unfold ramp_commit
  refine TouchesOnly.step ?_ (touchesOnly_write _ _ 86 _ (by decide))
  refine TouchesOnly.step ?_ (touchesOnly_write _ _ 85 _ (by decide))
  refine TouchesOnly.step ?_ (touchesOnly_modify _ _ 84 _ _ (by decide))
  refine TouchesOnly.step ?_ (touchesOnly_write _ _ 83 _ (by decide))
  refine TouchesOnly.step ?_ (touchesOnly_write _ _ 82 _ (by decide))
  refine TouchesOnly.step ?_ (touchesOnly_modify _ _ 81 _ _ (by decide))
  refine TouchesOnly.step ?_ (touchesOnly_write _ _ 80 _ (by decide))
  refine TouchesOnly.step ?_ (touchesOnly_write _ _ 79 _ (by decide))
  refine TouchesOnly.step ?_ (touchesOnly_modify _ _ 78 _ _ (by decide))
  refine TouchesOnly.step ?_ (touchesOnly_write _ _ 100 _ (by decide))
  refine TouchesOnly.step ?_ (touchesOnly_write _ _ 99 _ (by decide))
  refine touchesOnly_modify _ _ 98 _ _ (by decide)

/-- Normal form of `configure_ramp`: frequency reads, setup writes, then
either the commit writes (derivation defined, `PLL_DEN` nonzero and
assertions passed) or an abort with the setup state (a zero-division or a
failed assertion). -/
lemma configure_ramp_eq (st : St) (f_osc span len_s thr : ℚ) (neg fr : Bool) :
    LMX2594.configure_ramp st f_osc span len_s thr neg fr =
      if ramp_div_ok (f_pd_val st.regs f_osc)
          (ramp_len_code (f_pd_val st.regs f_osc) len_s) ∧
          pll_den_val st.regs ≠ 0 ∧
          ramp_codes_ok (ramp_len_code (f_pd_val st.regs f_osc) len_s)
            (ramp_inc_val (f_pd_val st.regs f_osc) span
              (ramp_len_code (f_pd_val st.regs f_osc) len_s) neg)
            (ramp_thresh_code (f_pd_val st.regs f_osc) thr) then
        (ramp_commit (ramp_setup (freq_reads f_osc st).1 fr)
          (ramp_len_code (f_pd_val st.regs f_osc) len_s)
          (ramp_inc_val (f_pd_val st.regs f_osc) span
            (ramp_len_code (f_pd_val st.regs f_osc) len_s) neg)
          (ramp_thresh_code (f_pd_val st.regs f_osc) thr)
          (f_pd_val st.regs f_osc) (freq_reads f_osc st).2.2 span, true)
      else (ramp_setup (freq_reads f_osc st).1 fr, false) := by
  simp only [LMX2594.configure_ramp, freq_reads_f_pd]

/-- `ramp_inc_code` is `none` exactly on the inputs where line 684
raises. -/
lemma ramp_inc_code_eq_none (f span : ℚ) (L : ℤ) (neg : Bool) :
    ramp_inc_code f span L neg = none ↔ ¬ ramp_div_ok f L := by
  unfold ramp_inc_code
  split_ifs with h <;> simp [h]

/-- `ramp_inc_code` is `some i` exactly when line 684 is defined and
yields `i`. -/
lemma ramp_inc_code_eq_some (f span : ℚ) (L i : ℤ) (neg : Bool) :
    ramp_inc_code f span L neg = some i ↔
      ramp_div_ok f L ∧ ramp_inc_val f span L neg = i := by
  unfold ramp_inc_code
  split_ifs with h <;> simp [h]

end PhaseLemmas

section RampFrameClaims

open LMX2594

lemma TouchesOnly.mono {S1 S2 : List Nat} {st1 st2 : St}
    (h : TouchesOnly S1 st1 st2) (hs : ∀ a ∈ S1, a ∈ S2) :
    TouchesOnly S2 st1 st2 := by
  obtain ⟨hr, new, ht, hw⟩ := h
  refine ⟨?_, new, ht, fun t htm b hb => hs b (hw t htm b hb)⟩
  intro a
  rcases hr a with h | h
  · exact Or.inl (hs a h)
  · exact Or.inr h

lemma touchesOnly_configure_ramp (r : Nat → Nat)
    (f_osc span len_s thr : ℚ) (neg fr : Bool) :
    TouchesOnly [105, 101, 97, 106, 60, 78, 98, 99, 100, 79, 80, 81, 82, 83, 84, 85, 86]
      ⟨[], r⟩ (LMX2594.configure_ramp ⟨[], r⟩ f_osc span len_s thr neg fr).1 := by
  rw [configure_ramp_eq]
  split_ifs with hok <;> dsimp only
  · exact ((touchesOnly_freq_reads _ _ _).step
      ((touchesOnly_ramp_setup _ _).mono (by decide))).step
      ((touchesOnly_ramp_commit _ _ _ _ _ _ _).mono (by decide))
  · exact (touchesOnly_freq_reads _ _ _).step
      ((touchesOnly_ramp_setup _ _).mono (by decide))

/-- C7: `configure_ramp` never writes or modifies register 0 — for every
initial register file and every choice of parameters, no transaction it
issues writes register 0 and the content of register 0 is unchanged, so in
particular the calibration-enable bit FCAL_EN (R0 bit 3) and RAMP_EN (R0
bit 15) are untouched: the ramp is staged but never armed by this
routine. -/
theorem configure_ramp_never_touches_R0 (r : Nat → Nat)
    (f_osc span len_s thr : ℚ) (neg fr : Bool) :
    (LMX2594.configure_ramp ⟨[], r⟩ f_osc span len_s thr neg fr).1.regs 0 = r 0 ∧
    (LMX2594.configure_ramp ⟨[], r⟩ f_osc span len_s thr neg fr).1.txns.all
      (fun t => !writesReg t 0) = true ∧
    get_bits ((LMX2594.configure_ramp ⟨[], r⟩ f_osc span len_s thr neg
      fr).1.regs 0) (3, 3) = get_bits (r 0) (3, 3) ∧
    get_bits ((LMX2594.configure_ramp ⟨[], r⟩ f_osc span len_s thr neg
      fr).1.regs 0) (15, 15) = get_bits (r 0) (15, 15) := by
  have hT := touchesOnly_configure_ramp r f_osc span len_s thr neg fr
  have hregs : (LMX2594.configure_ramp ⟨[], r⟩ f_osc span len_s thr neg
      fr).1.regs 0 = r 0 := by
    rcases hT.1 0 with h | h
    · exact absurd h (by decide)
    · exact h
  refine ⟨hregs, ?_, by rw [hregs], by rw [hregs]⟩
  obtain ⟨new, hnew, hw⟩ := hT.2
  rw [List.all_eq_true]
  intro t ht
  rw [hnew] at ht
  simp only [List.nil_append] at ht
  cases hb : writesReg t 0
  · simp
  · exact absurd (hw t ht 0 hb) (by decide)

end RampFrameClaims

section RampIncClaims

open LMX2594

lemma ramp_setup_filter99 (st : St) (fr : Bool) :
    (ramp_setup st fr).txns.filter (fun t => writesReg t 99) =
      st.txns.filter (fun t => writesReg t 99) := by
  unfold ramp_setup
  cases fr <;>
    simp [set_ramp_trig_type_zero, set_ramp_trig_zero, modify_txns,
      write_txns, writesReg, List.filter_append]

lemma ramp_commit_filter99 (st : St) (L I T : ℤ) (f fv s : ℚ) :
    (ramp_commit st L I T f fv s).txns.filter (fun t => writesReg t 99) =
      st.txns.filter (fun t => writesReg t 99) ++
        [Txn.write 99 ((I % 65536).toNat)] := by
  unfold ramp_commit
  simp [modify_txns, write_txns, writesReg, List.filter_append]

lemma freq_reads_filter99 (f : ℚ) (r : Nat → Nat) :
    ((freq_reads f ⟨[], r⟩).1.txns.filter (fun t => writesReg t 99)) = [] := by
  rw [freq_reads_fst]
  simp [writesReg]

/-- C3: for every pair of `configure_ramp` calls identical except for the
descending flag, the `ramp_inc` derivation with `neg_ramp = true` raises
exactly when the ascending one raises, and when defined its value equals
`2 ^ 30` (= 0x40000000) minus the ascending value; and in either case a
write of the ramp-increment low word (register 99) appears in the
transaction log exactly when the increment was derived without a
zero-division, `PLL_DEN ≠ 0` (a zero `PLL_DEN` aborts the call at line
663, before the asserts), and the range check
`0 ≤ ramp_inc ≤ 0x3FFFFFFF` (together with the two other range checks,
all evaluated before any ramp-value write) passes. -/
theorem ramp_inc_descending_complement (r : Nat → Nat)
    (f_osc span len_s thr : ℚ) (fr : Bool) :
    ramp_inc_code (f_pd_val r f_osc) span
        (ramp_len_code (f_pd_val r f_osc) len_s) true =
      (ramp_inc_code (f_pd_val r f_osc) span
        (ramp_len_code (f_pd_val r f_osc) len_s) false).map
          (fun i => 0x40000000 - i) ∧
    ∀ neg : Bool,
      (LMX2594.configure_ramp ⟨[], r⟩ f_osc span len_s thr neg fr).1.txns.filter
          (fun t => writesReg t 99) =
        (ramp_inc_code (f_pd_val r f_osc) span
          (ramp_len_code (f_pd_val r f_osc) len_s) neg).elim []
          (fun i =>
            if pll_den_val r ≠ 0 ∧
                ramp_codes_ok (ramp_len_code (f_pd_val r f_osc) len_s) i
                  (ramp_thresh_code (f_pd_val r f_osc) thr) then
              [Txn.write 99 ((i % 65536).toNat)]
            else []) := by
  constructor
  · unfold ramp_inc_code
    by_cases h : ramp_div_ok (f_pd_val r f_osc)
        (ramp_len_code (f_pd_val r f_osc) len_s)
    · rw [if_pos h, if_pos h]
      simp [ramp_inc_val]
    · rw [if_neg h, if_neg h]
      rfl
  · intro neg
    by_cases hdiv : ramp_div_ok (f_pd_val r f_osc)
        (ramp_len_code (f_pd_val r f_osc) len_s)
    · rw [show ramp_inc_code (f_pd_val r f_osc) span
          (ramp_len_code (f_pd_val r f_osc) len_s) neg =
          some (ramp_inc_val (f_pd_val r f_osc) span
            (ramp_len_code (f_pd_val r f_osc) len_s) neg) from
        (ramp_inc_code_eq_some _ _ _ _ _).mpr ⟨hdiv, rfl⟩]
      rw [configure_ramp_eq]
      by_cases hrest : pll_den_val r ≠ 0 ∧
          ramp_codes_ok (ramp_len_code (f_pd_val r f_osc) len_s)
            (ramp_inc_val (f_pd_val r f_osc) span
              (ramp_len_code (f_pd_val r f_osc) len_s) neg)
            (ramp_thresh_code (f_pd_val r f_osc) thr)
      · rw [if_pos ⟨hdiv, hrest⟩]
        dsimp only [Option.elim]
        rw [if_pos hrest, ramp_commit_filter99, ramp_setup_filter99,
          freq_reads_filter99]
        simp
      · rw [if_neg (fun h => hrest ⟨h.2.1, h.2.2⟩)]
        dsimp only [Option.elim]
        rw [if_neg hrest, ramp_setup_filter99, freq_reads_filter99]
    · rw [show ramp_inc_code (f_pd_val r f_osc) span
          (ramp_len_code (f_pd_val r f_osc) len_s) neg = none from
        (ramp_inc_code_eq_none _ _ _ _).mpr hdiv]
      rw [configure_ramp_eq]
      rw [if_neg (fun h => hdiv h.1)]
      dsimp only [Option.elim]
      rw [ramp_setup_filter99, freq_reads_filter99]

end RampIncClaims

section RampValueLemmas

open LMX2594

lemma natMod_toNat (n : Nat) (h : n < 65536) :
    (((n : ℤ)) % 65536).toNat = n := by omega

lemma f_pd_val_testFile : f_pd_val testFile 1 = 1 := by
  norm_num [f_pd_val, testFile, get_bits_eq, Nat.shiftRight_eq_div_pow]

lemma ramp_setup_regs_60 (st : St) (fr : Bool) :
    (ramp_setup st fr).regs 60 = 0 := by
  unfold ramp_setup
  cases fr <;>
    simp [set_ramp_trig_type_zero, set_ramp_trig_zero, modify_regs,
      write_regs]

lemma ramp_commit_regs_vals (st : St) (L I T : ℤ) (f fv s : ℚ) :
    (ramp_commit st L I T f fv s).regs 100 = (L % 65536).toNat ∧
    (ramp_commit st L I T f fv s).regs 99 = (I % 65536).toNat ∧
    (ramp_commit st L I T f fv s).regs 98 =
      ((modify_word (st.regs 98 % 65536) (2, 15)
        ((I / 65536 % 16384).toNat) : ℤ) % 65536).toNat ∧
    (ramp_commit st L I T f fv s).regs 80 = (T % 65536).toNat ∧
    (ramp_commit st L I T f fv s).regs 79 = (T / 65536 % 65536).toNat ∧
    (ramp_commit st L I T f fv s).regs 78 =
      ((modify_word (st.regs 78 % 65536) (11, 11)
        ((T / 4294967296 % 2).toNat) : ℤ) % 65536).toNat := by
  unfold ramp_commit
  refine ⟨?_, ?_, ?_, ?_, ?_, ?_⟩ <;>
    simp [modify_regs, write_regs, postRead_regs, readVal]

end RampValueLemmas

section ValidationFailureClaims

open LMX2594

/-- Counterexample to C1: with `f_osc_in = 1` on `testFile` (so
`f_pd = 1`) and `ramp_len_s = 131072`, the increment derivation succeeds
(`some 0`) and the derived `ramp_len` is `131072 > 0xFFFF`, so the range
assertion fires — yet the call has already issued bus transactions (the
transaction log is nonempty: twenty frequency reads and the trigger/mode
configuration writes), and register 60 has been overwritten from 5 to 0.
The call does not fail before the first bus transaction and registers do
not stay unchanged. -/
theorem configure_ramp_partial_writes_cex :
    ramp_inc_code (f_pd_val testFile 1) 0
        (ramp_len_code (f_pd_val testFile 1) 131072) false = some 0 ∧
    ¬ (0 ≤ ramp_len_code (f_pd_val testFile 1) 131072 ∧
        ramp_len_code (f_pd_val testFile 1) 131072 ≤ 0xFFFF) ∧
    (LMX2594.configure_ramp ⟨[], testFile⟩ 1 0 131072 0 false true).2 = false ∧
    (LMX2594.configure_ramp ⟨[], testFile⟩ 1 0 131072 0 false true).1.txns ≠ [] ∧
    (LMX2594.configure_ramp ⟨[], testFile⟩ 1 0 131072 0 false true).1.regs 60 = 0 ∧
    testFile 60 = 5 := by
  have hL : ramp_len_code (f_pd_val testFile 1) 131072 = 131072 := by
    rw [f_pd_val_testFile]; norm_num [ramp_len_code, pyInt]
  have hI : ramp_inc_code (f_pd_val testFile 1) 0
      (ramp_len_code (f_pd_val testFile 1) 131072) false = some 0 := by
    rw [hL, f_pd_val_testFile]
    norm_num [ramp_inc_code, ramp_div_ok, ramp_inc_val, pyInt]
  have hneg : ¬ (ramp_div_ok (f_pd_val testFile 1)
      (ramp_len_code (f_pd_val testFile 1) 131072) ∧
      pll_den_val testFile ≠ 0 ∧
      ramp_codes_ok (ramp_len_code (f_pd_val testFile 1) 131072)
        (ramp_inc_val (f_pd_val testFile 1) 0
          (ramp_len_code (f_pd_val testFile 1) 131072) false)
        (ramp_thresh_code (f_pd_val testFile 1) 0)) := by
    intro h
    obtain ⟨_, hL1, _⟩ := h.2.2
    rw [hL] at hL1
    norm_num at hL1
  have heq : LMX2594.configure_ramp ⟨[], testFile⟩ 1 0 131072 0 false true =
      (ramp_setup (freq_reads 1 ⟨[], testFile⟩).1 true, false) := by
    rw [configure_ramp_eq]
    dsimp only
    rw [if_neg hneg]
  refine ⟨hI, ?_, ?_, ?_, ?_, rfl⟩
  · rw [hL]; decide
  · rw [heq]
  · rw [heq]
    obtain ⟨new, hnew, _⟩ :=
      (touchesOnly_ramp_setup (freq_reads 1 ⟨[], testFile⟩).1 true).2
    dsimp only
    rw [hnew, freq_reads_fst]
    simp
  · rw [heq]
    dsimp only
    rw [ramp_setup_regs_60]

/-- C1 amended: when the ramp-code derivation fails — the increment
derivation raises a zero-division, or it yields a value and one of the
derived `ramp_len`, `ramp_inc`, `ramp_thresh` violates its declared
range — `configure_ramp` returns without writing any of the ramp-value
registers: every register outside the trigger/mode configuration set
{105, 101, 97, 106, 60, 78} is unchanged and every write transaction
issued targets that set.  But the twenty frequency reads and those
configuration writes are issued before validation, so the call does not
fail before the first bus transaction. -/
theorem configure_ramp_validation_failure_frame (r : Nat → Nat)
    (f_osc span len_s thr : ℚ) (neg fr : Bool)
    (hfail : ramp_inc_code (f_pd_val r f_osc) span
        (ramp_len_code (f_pd_val r f_osc) len_s) neg = none ∨
      ∃ i : ℤ, ramp_inc_code (f_pd_val r f_osc) span
          (ramp_len_code (f_pd_val r f_osc) len_s) neg = some i ∧
        ¬ ramp_codes_ok (ramp_len_code (f_pd_val r f_osc) len_s) i
          (ramp_thresh_code (f_pd_val r f_osc) thr)) :
    (LMX2594.configure_ramp ⟨[], r⟩ f_osc span len_s thr neg fr).2 = false ∧
    (∀ a : Nat, a ∈ ([105, 101, 97, 106, 60, 78] : List Nat) ∨
      (LMX2594.configure_ramp ⟨[], r⟩ f_osc span len_s thr neg fr).1.regs a = r a) ∧
    ∀ t ∈ (LMX2594.configure_ramp ⟨[], r⟩ f_osc span len_s thr neg fr).1.txns,
      ∀ b : Nat, writesReg t b = true →
        b ∈ ([105, 101, 97, 106, 60, 78] : List Nat) := by
  have hneg : ¬ (ramp_div_ok (f_pd_val r f_osc)
      (ramp_len_code (f_pd_val r f_osc) len_s) ∧
      pll_den_val r ≠ 0 ∧
      ramp_codes_ok (ramp_len_code (f_pd_val r f_osc) len_s)
        (ramp_inc_val (f_pd_val r f_osc) span
          (ramp_len_code (f_pd_val r f_osc) len_s) neg)
        (ramp_thresh_code (f_pd_val r f_osc) thr)) := by
    rcases hfail with hnone | ⟨i, hsome, hnok⟩
    · intro h
      exact (ramp_inc_code_eq_none _ _ _ _).mp hnone h.1
    · intro h
      obtain ⟨hdiv, hvi⟩ := (ramp_inc_code_eq_some _ _ _ _ _).mp hsome
      rw [hvi] at h
      exact hnok h.2.2
  have heq : LMX2594.configure_ramp ⟨[], r⟩ f_osc span len_s thr neg fr =
      (ramp_setup (freq_reads f_osc ⟨[], r⟩).1 fr, false) := by
    rw [configure_ramp_eq]
    dsimp only
    rw [if_neg hneg]
  have hT : TouchesOnly [105, 101, 97, 106, 60, 78] ⟨[], r⟩
      (ramp_setup (freq_reads f_osc ⟨[], r⟩).1 fr) :=
    (touchesOnly_freq_reads _ _ _).step (touchesOnly_ramp_setup _ _)
  rw [heq]
  refine ⟨rfl, ?_, ?_⟩
  · intro a
    rcases hT.1 a with h | h
    · exact Or.inl h
    · exact Or.inr h
  · obtain ⟨new, hnew, hw⟩ := hT.2
    intro t ht b hb
    dsimp only at ht
    rw [hnew] at ht
    simp only [List.nil_append] at ht
    exact hw t ht b hb

/-- Witness for the amended C1 on `testFile` with `ramp_len_s = 131072`
(increment derivation defined with value 0, `ramp_len = 131072` out of
range). -/
theorem configure_ramp_validation_failure_frame_witness :
    (ramp_inc_code (f_pd_val testFile 1) 0
        (ramp_len_code (f_pd_val testFile 1) 131072) false = none ∨
      ∃ i : ℤ, ramp_inc_code (f_pd_val testFile 1) 0
          (ramp_len_code (f_pd_val testFile 1) 131072) false = some i ∧
        ¬ ramp_codes_ok (ramp_len_code (f_pd_val testFile 1) 131072) i
          (ramp_thresh_code (f_pd_val testFile 1) 0)) ∧
    ((LMX2594.configure_ramp ⟨[], testFile⟩ 1 0 131072 0 false false).2 = false ∧
      (∀ a : Nat, a ∈ ([105, 101, 97, 106, 60, 78] : List Nat) ∨
        (LMX2594.configure_ramp ⟨[], testFile⟩ 1 0 131072 0 false
          false).1.regs a = testFile a) ∧
      ∀ t ∈ (LMX2594.configure_ramp ⟨[], testFile⟩ 1 0 131072 0 false
          false).1.txns,
        ∀ b : Nat, writesReg t b = true →
          b ∈ ([105, 101, 97, 106, 60, 78] : List Nat)) :=
  have hL : ramp_len_code (f_pd_val testFile 1) 131072 = 131072 := by
    rw [f_pd_val_testFile]; norm_num [ramp_len_code, pyInt]
  have hfail : ramp_inc_code (f_pd_val testFile 1) 0
      (ramp_len_code (f_pd_val testFile 1) 131072) false = none ∨
    ∃ i : ℤ, ramp_inc_code (f_pd_val testFile 1) 0
        (ramp_len_code (f_pd_val testFile 1) 131072) false = some i ∧
      ¬ ramp_codes_ok (ramp_len_code (f_pd_val testFile 1) 131072) i
        (ramp_thresh_code (f_pd_val testFile 1) 0) :=
    Or.inr ⟨0,
      by rw [hL, f_pd_val_testFile]
         norm_num [ramp_inc_code, ramp_div_ok, ramp_inc_val, pyInt],
      by intro h
         obtain ⟨_, hL1, _⟩ := h
         rw [hL] at hL1
         norm_num at hL1⟩
  ⟨hfail, configure_ramp_validation_failure_frame testFile 1 0 131072 0
    false false hfail⟩

end ValidationFailureClaims

section TruncationClaims

open LMX2594

/-- Counterexample to C2: `configure_ramp` computes its codes with Python
`int()` truncation, not rounding.  On `testFile` with `f_osc_in = 1`
(so `f_pd = 1`) and `ramp_len_s = 11/4`, the code derives
`ramp_len = int(2.75) = 2`, whereas `round(ramp_len_s * f_pd) = 3`. -/
theorem ramp_codes_trunc_not_round_cex :
    ramp_len_code (f_pd_val testFile 1) (11 / 4) = 2 ∧
    round ((11 / 4 : ℚ) * f_pd_val testFile 1) = 3 ∧ (2 : ℤ) ≠ 3 := by
  rw [f_pd_val_testFile]
  refine ⟨?_, ?_, by decide⟩
  · norm_num [ramp_len_code, pyInt]
  · norm_num [round_eq]

/-- C2 amended: the register codes `configure_ramp` computes are the
Python `int()` truncations (toward zero) rather than roundings:
`ramp_len = int(ramp_len_s * f_pd)`,
`ramp_inc = int(span_hz / f_pd * 2^24 / ramp_len)` (ascending case,
defined only when `f_pd` and `ramp_len` are nonzero — otherwise line 684
raises and nothing is written), and
`recal_threshold = int(thresh_hz / f_pd * 2^24)`; when the increment
derivation is defined, `PLL_DEN` is nonzero (a zero `PLL_DEN` aborts the
call at line 663), and all three values pass their range checks, these
values are exactly what lands in the device registers — RAMP0_LEN
(register 100), the RAMP0_INC low word (register 99) and high bits
(register 98 bits [2,15]), and RAMP_THRESH (registers 80, 79 and bit 11
of register 78). -/
theorem configure_ramp_codes_truncated (r : Nat → Nat)
    (f_osc span len_s thr : ℚ) (fr : Bool) (i : ℤ)
    (hden : pll_den_val r ≠ 0)
    (hsome : ramp_inc_code (f_pd_val r f_osc) span
      (ramp_len_code (f_pd_val r f_osc) len_s) false = some i)
    (hok : ramp_codes_ok (ramp_len_code (f_pd_val r f_osc) len_s) i
      (ramp_thresh_code (f_pd_val r f_osc) thr)) :
    (LMX2594.configure_ramp ⟨[], r⟩ f_osc span len_s thr false fr).2 = true ∧
    (LMX2594.configure_ramp ⟨[], r⟩ f_osc span len_s thr false fr).1.regs 100 =
      (ramp_len_code (f_pd_val r f_osc) len_s).toNat ∧
    (LMX2594.configure_ramp ⟨[], r⟩ f_osc span len_s thr false fr).1.regs 99 =
      (i % 65536).toNat ∧
    get_bits ((LMX2594.configure_ramp ⟨[], r⟩ f_osc span len_s thr false
        fr).1.regs 98) (2, 15) = (i / 65536).toNat ∧
    (LMX2594.configure_ramp ⟨[], r⟩ f_osc span len_s thr false fr).1.regs 80 =
      (ramp_thresh_code (f_pd_val r f_osc) thr % 65536).toNat ∧
    (LMX2594.configure_ramp ⟨[], r⟩ f_osc span len_s thr false fr).1.regs 79 =
      (ramp_thresh_code (f_pd_val r f_osc) thr / 65536 % 65536).toNat ∧
    get_bits ((LMX2594.configure_ramp ⟨[], r⟩ f_osc span len_s thr false
        fr).1.regs 78) (11, 11) =
      (ramp_thresh_code (f_pd_val r f_osc) thr / 4294967296 % 2).toNat := by
  obtain ⟨hdiv, hvi⟩ := (ramp_inc_code_eq_some _ _ _ _ _).mp hsome
  have heq : LMX2594.configure_ramp ⟨[], r⟩ f_osc span len_s thr false fr =
      (ramp_commit (ramp_setup (freq_reads f_osc ⟨[], r⟩).1 fr)
        (ramp_len_code (f_pd_val r f_osc) len_s) i
        (ramp_thresh_code (f_pd_val r f_osc) thr)
        (f_pd_val r f_osc) (freq_reads f_osc ⟨[], r⟩).2.2 span, true) := by
    rw [configure_ramp_eq]
    dsimp only
    rw [hvi, if_pos ⟨hdiv, hden, hok⟩]
  obtain ⟨hv100, hv99, hv98, hv80, hv79, hv78⟩ :=
    ramp_commit_regs_vals (ramp_setup (freq_reads f_osc ⟨[], r⟩).1 fr)
      (ramp_len_code (f_pd_val r f_osc) len_s) i
      (ramp_thresh_code (f_pd_val r f_osc) thr)
      (f_pd_val r f_osc) ((freq_reads f_osc ⟨[], r⟩).2.2) span
  obtain ⟨hL0, hL1, hI0, hI1, hT0, hT1⟩ := hok
  refine ⟨by rw [heq], ?_, ?_, ?_, ?_, ?_, ?_⟩
  · rw [heq]
    dsimp only
    rw [hv100, Int.emod_eq_of_lt hL0 (by omega)]
  · rw [heq]
    dsimp only
    rw [hv99]
  · rw [heq]
    dsimp only
    rw [hv98]
    have hmw := modify_word_lt
      ((ramp_setup (freq_reads f_osc ⟨[], r⟩).1 fr).regs 98 % 65536) 2 15
      ((i / 65536 % 16384).toNat) (by norm_num) (by norm_num)
    rw [show (2 : ℕ) ^ 16 = 65536 from by norm_num] at hmw
    rw [natMod_toNat _ hmw,
      get_bits_modify_word _ 2 15 _ (by norm_num) (by norm_num)]
    have h1 : 0 ≤ i / 65536 := Int.ediv_nonneg hI0 (by norm_num)
    have h2 : i / 65536 < 16384 := by
      rw [Int.ediv_lt_iff_lt_mul (by norm_num)]
      omega
    rw [Int.emod_eq_of_lt h1 h2]
    have h3 : (i / 65536).toNat < 2 ^ (15 - 2 + 1) := by
      norm_num
      omega
    exact Nat.mod_eq_of_lt h3
  · rw [heq]
    dsimp only
    rw [hv80]
  · rw [heq]
    dsimp only
    rw [hv79]
  · rw [heq]
    dsimp only
    rw [hv78]
    have hmw := modify_word_lt
      ((ramp_setup (freq_reads f_osc ⟨[], r⟩).1 fr).regs 78 % 65536) 11 11
      ((ramp_thresh_code (f_pd_val r f_osc) thr / 4294967296 % 2).toNat)
      (by norm_num) (by norm_num)
    rw [show (2 : ℕ) ^ 16 = 65536 from by norm_num] at hmw
    rw [natMod_toNat _ hmw,
      get_bits_modify_word _ 11 11 _ (by norm_num) (by norm_num)]
    have h1 : 0 ≤ ramp_thresh_code (f_pd_val r f_osc) thr / 4294967296 % 2 :=
      Int.emod_nonneg _ (by norm_num)
    have h2 : ramp_thresh_code (f_pd_val r f_osc) thr / 4294967296 % 2 < 2 :=
      Int.emod_lt_of_pos _ (by norm_num)
    have h3 : (ramp_thresh_code (f_pd_val r f_osc) thr / 4294967296 %
        2).toNat < 2 ^ (11 - 11 + 1) := by
      norm_num
      omega
    exact Nat.mod_eq_of_lt h3
end TruncationClaims

section TruncationWitness

open LMX2594

/-- Witness for the amended C2 on `testFile` with `f_osc_in = 1`,
`span_hz = 16`, `ramp_len_s = 4`, `thresh_hz = 2`: `PLL_DEN = 1`, the
derived codes are `ramp_len = 4`, `ramp_inc = some (2 ^ 26)`,
`ramp_thresh = 2 ^ 25`, all in range. -/
theorem configure_ramp_codes_truncated_witness :
    pll_den_val testFile ≠ 0 ∧
    ramp_inc_code (f_pd_val testFile 1) 16
      (ramp_len_code (f_pd_val testFile 1) 4) false = some 67108864 ∧
    ramp_codes_ok (ramp_len_code (f_pd_val testFile 1) 4) 67108864
      (ramp_thresh_code (f_pd_val testFile 1) 2) ∧
    ((LMX2594.configure_ramp ⟨[], testFile⟩ 1 16 4 2 false true).2 = true ∧
      (LMX2594.configure_ramp ⟨[], testFile⟩ 1 16 4 2 false true).1.regs 100 =
        (ramp_len_code (f_pd_val testFile 1) 4).toNat ∧
      (LMX2594.configure_ramp ⟨[], testFile⟩ 1 16 4 2 false true).1.regs 99 =
        ((67108864 : ℤ) % 65536).toNat ∧
      get_bits ((LMX2594.configure_ramp ⟨[], testFile⟩ 1 16 4 2 false
          true).1.regs 98) (2, 15) = ((67108864 : ℤ) / 65536).toNat ∧
      (LMX2594.configure_ramp ⟨[], testFile⟩ 1 16 4 2 false true).1.regs 80 =
        (ramp_thresh_code (f_pd_val testFile 1) 2 % 65536).toNat ∧
      (LMX2594.configure_ramp ⟨[], testFile⟩ 1 16 4 2 false true).1.regs 79 =
        (ramp_thresh_code (f_pd_val testFile 1) 2 / 65536 % 65536).toNat ∧
      get_bits ((LMX2594.configure_ramp ⟨[], testFile⟩ 1 16 4 2 false
          true).1.regs 78) (11, 11) =
        (ramp_thresh_code (f_pd_val testFile 1) 2 / 4294967296 % 2).toNat) :=
  have hden : pll_den_val testFile ≠ 0 := by decide
  have h4 : ramp_len_code (f_pd_val testFile 1) 4 = 4 := by
    rw [f_pd_val_testFile]; norm_num [ramp_len_code, pyInt]
  have hsome : ramp_inc_code (f_pd_val testFile 1) 16
      (ramp_len_code (f_pd_val testFile 1) 4) false = some 67108864 := by
    rw [h4, f_pd_val_testFile]
    norm_num [ramp_inc_code, ramp_div_ok, ramp_inc_val, pyInt]
  have hok : ramp_codes_ok (ramp_len_code (f_pd_val testFile 1) 4) 67108864
      (ramp_thresh_code (f_pd_val testFile 1) 2) := by
    have hT2 : ramp_thresh_code (f_pd_val testFile 1) 2 = 33554432 := by
      rw [f_pd_val_testFile]; norm_num [ramp_thresh_code, pyInt]
    unfold ramp_codes_ok
    rw [hT2, h4]
    norm_num
  ⟨hden, hsome, hok,
    configure_ramp_codes_truncated testFile 1 16 4 2 true 67108864
      hden hsome hok⟩

end TruncationWitness
